import Mathlib

/-!
Verification of the CPU limiter core (src/limiter.rs) against its
natural-language specification.

The shared state, its setters, and the body of the background duty-cycle
loop are embedded shallowly: one Lean function per Rust function, machine
integers as `Nat`/`Int`, `f32` CPU samples as `ℚ` (the code only compares
them and subtracts the constant hysteresis, all exact operations), and the
fallible `kill` system call as a boolean aliveness oracle supplied by an
environment record.  Signals issued and sleeps performed are collected in
an explicit event trace, in program order.
-/

/-- Mode of the limiter: throttle one chosen pid, or keep total system CPU
below the limit (enum `LimiterMode` in limiter.rs). -/
inductive LimiterMode
  | Targeted
  | Global
deriving DecidableEq, Repr

/-- Shared state behind the mutex (struct `LimiterState` in limiter.rs). -/
structure LimiterState where
  target_pid : Option Int
  limit_percentage : Nat
  mode : LimiterMode
  is_active : Bool
deriving DecidableEq, Repr

/-- Initial shared state built by `Limiter::new`. -/
def LimiterState.new : LimiterState :=
  { target_pid := none, limit_percentage := 100, mode := LimiterMode.Targeted,
    is_active := false }

/-- Observable side effects of the engine: signals sent (`kill` calls,
successful or not) and sleeps, in program order. -/
inductive Event
  | sigcont (pid : Int)
  | sigstop (pid : Int)
  | sleep (ms : Nat)
deriving DecidableEq, Repr

/-- Setter `Limiter::set_target`: stores the pid and forces Targeted mode. -/
def set_target (s : LimiterState) (pid : Int) : LimiterState :=
  { s with target_pid := some pid, mode := LimiterMode.Targeted }

/-- Setter `Limiter::set_global`: forces Global mode and stores the limit
without clamping it. -/
def set_global (s : LimiterState) (limit : Nat) : LimiterState :=
  { s with mode := LimiterMode.Global, limit_percentage := limit }

/-- Setter `Limiter::set_limit`: stores `limit.clamp(1, 100)`. -/
def set_limit (s : LimiterState) (limit : Nat) : LimiterState :=
  { s with limit_percentage := min (max limit 1) 100 }

/-- Setter `Limiter::toggle`: stores the flag; on deactivation it also sends
a best-effort continue signal to the configured target (result ignored). -/
def toggle (s : LimiterState) (active : Bool) : LimiterState × List Event :=
  let s2 := { s with is_active := active }
  if active then (s2, [])
  else
    match s.target_pid with
    | some pid => (s2, [Event.sigcont pid])
    | none => (s2, [])

/-- Duty cycle period in ms (`PERIOD_MS` in the engine thread). -/
def PERIOD_MS : Nat := 100

/-- Hysteresis margin in percentage points (`GLOBAL_HYSTERESIS`). -/
def GLOBAL_HYSTERESIS : ℚ := 5

/-- Engine-local working set owned by the background thread: the pid held in
Targeted mode, the FIFO `paused_global` queue (front at the list head) and
the `paused_global_set` hash set, modelled as the list of its elements. -/
structure EngineState where
  targeted_pid : Option Int
  paused_global : List Int
  paused_global_set : List Int
deriving DecidableEq, Repr

/-- HashSet::insert — adds the element when absent, no duplicates. -/
def hsInsert (s : List Int) (x : Int) : List Int :=
  if x ∈ s then s else x :: s

/-- Environment of one loop iteration: which pids are alive when the first
and the second `kill` of the iteration run (the target can exit in between),
the sampled total CPU load, the refreshed process list as (pid, cpu usage)
pairs, and the limiter's own process id. -/
structure Env where
  alive : Int → Bool
  aliveLater : Int → Bool
  total_load : ℚ
  processes : List (Int × ℚ)
  myself : Int

/-- Result of one body execution of the engine loop: the new working set,
the emitted events, and whether the loop broke out (shutdown). -/
structure StepResult where
  es : EngineState
  events : List Event
  broke : Bool
deriving Repr

/-- Drain loop `while let Some(pid) = paused_global.pop_front()`: send a
continue signal to each queued pid and remove it from the set; returns the
final set together with the emitted events (the queue ends empty). -/
def drainGlobal : List Int → List Int → List Int × List Event
  | [], s => (s, [])
  | pid :: rest, s =>
    let r := drainGlobal rest (s.erase pid)
    (r.1, Event.sigcont pid :: r.2)

/-- Noise floor of the global-mode candidate filter (`0.5` in the source). -/
def noiseFloor : ℚ := mkRat 1 2

/-- Candidate filter of the global branch: drop our own pid, every pid
already held in the paused set, and every process at or below the noise
floor; keep (pid, usage) pairs otherwise. -/
def candidatesOf (env : Env) (pausedSet : List Int) : List (Int × ℚ) :=
  env.processes.filterMap fun p =>
    if p.1 = env.myself ∨ p.1 ∈ pausedSet then none
    else if p.2 ≤ noiseFloor then none
    else some p

/-- Comparator of the candidate sort: descending by usage (`sort_by` with
`b.1.partial_cmp(&a.1)` in the source, a stable sort). -/
def usageGE (a b : Int × ℚ) : Prop := b.2 ≤ a.2

instance : DecidableRel usageGE := fun a b => inferInstanceAs (Decidable (b.2 ≤ a.2))

/-- Victim selection of the global branch: stable sort of the candidates by
descending usage, then `candidates.first()`. -/
def selectVictim (env : Env) (pausedSet : List Int) : Option (Int × ℚ) :=
  (List.insertionSort usageGE (candidatesOf env pausedSet)).head?

/-- Resume threshold of the global branch: `(limit - 5).max(0)`. -/
def lowerThreshold (limit : Nat) : ℚ := max ((limit : ℚ) - GLOBAL_HYSTERESIS) 0

/-- Opening drain of the Targeted branch (limiter.rs lines 125-130): when
the global queue is non-empty, resume and drop every entry. -/
def targetedDrain (es : EngineState) : List Int × List Event :=
  if es.paused_global.isEmpty then (es.paused_global_set, [])
  else drainGlobal es.paused_global es.paused_global_set

/-- Target adoption (limiter.rs lines 132-137): when the configured target
differs from the held one, resume the held pid and adopt the new target. -/
def adoptTarget (cur target : Option Int) : Option Int × List Event :=
  if cur ≠ target then
    (target,
      match cur with
      | some old => [Event.sigcont old]
      | none => [])
  else (cur, [])

/-- Duty cycle on the held pid (limiter.rs lines 139-159): continue signal
with failure handling, run sleep, stop signal with failure handling, stop
sleep.  The global queue is already drained; `set1` is the drained set. -/
def dutyCycle (pid : Int) (limit : Nat) (env : Env) (set1 : List Int) :
    StepResult :=
  let run_ms := PERIOD_MS * limit / 100
  let stop_ms := PERIOD_MS - run_ms
  if env.alive pid = false then
    { es := ⟨none, [], set1⟩,
      events := [Event.sigcont pid, Event.sleep PERIOD_MS], broke := false }
  else
    let evRun := if 0 < run_ms then [Event.sleep run_ms] else []
    if 0 < stop_ms then
      if env.aliveLater pid = false then
        { es := ⟨none, [], set1⟩,
          events := [Event.sigcont pid] ++ evRun ++
            [Event.sigstop pid, Event.sleep PERIOD_MS], broke := false }
      else
        { es := ⟨some pid, [], set1⟩,
          events := [Event.sigcont pid] ++ evRun ++
            [Event.sigstop pid, Event.sleep stop_ms], broke := false }
    else
      { es := ⟨some pid, [], set1⟩,
        events := [Event.sigcont pid] ++ evRun, broke := false }

/-- Targeted branch of the loop body (limiter.rs lines 124-163): drain any
global suspensions, adopt a changed target (resuming the old one), then run
the continue/sleep/stop/sleep duty cycle with failure handling. -/
def targetedStep (target : Option Int) (limit : Nat) (env : Env)
    (es : EngineState) : StepResult :=
  let drained := targetedDrain es
  let switched := adoptTarget es.targeted_pid target
  match switched.1 with
  | none =>
      { es := ⟨none, [], drained.1⟩,
        events := drained.2 ++ switched.2 ++ [Event.sleep PERIOD_MS],
        broke := false }
  | some pid =>
      let r := dutyCycle pid limit env drained.1
      { es := r.es, events := drained.2 ++ switched.2 ++ r.events,
        broke := r.broke }

/-- Global branch of the loop body (limiter.rs lines 164-215): release a
held targeted pid, then suspend the top candidate when load is above the
limit, or resume the queue head when load is below the lower threshold. -/
def globalStep (limit : Nat) (env : Env) (es : EngineState) : StepResult :=
  let evT : List Event :=
    match es.targeted_pid with
    | some pid => [Event.sigcont pid]
    | none => []
  if (limit : ℚ) < env.total_load then
    match selectVictim env es.paused_global_set with
    | some sel =>
        if env.alive sel.1 then
          { es := ⟨none, es.paused_global ++ [sel.1],
              hsInsert es.paused_global_set sel.1⟩,
            events := evT ++ [Event.sigstop sel.1, Event.sleep PERIOD_MS],
            broke := false }
        else
          { es := ⟨none, es.paused_global, es.paused_global_set.erase sel.1⟩,
            events := evT ++ [Event.sigstop sel.1, Event.sleep PERIOD_MS],
            broke := false }
    | none =>
        { es := ⟨none, es.paused_global, es.paused_global_set⟩,
          events := evT ++ [Event.sleep PERIOD_MS], broke := false }
  else if env.total_load < lowerThreshold limit then
    match es.paused_global with
    | pid :: rest =>
        { es := ⟨none, rest, es.paused_global_set.erase pid⟩,
          events := evT ++ [Event.sigcont pid, Event.sleep PERIOD_MS],
          broke := false }
    | [] =>
        { es := ⟨none, [], es.paused_global_set⟩,
          events := evT ++ [Event.sleep PERIOD_MS], broke := false }
  else
    { es := ⟨none, es.paused_global, es.paused_global_set⟩,
      events := evT ++ [Event.sleep PERIOD_MS], broke := false }

/-- One execution of the body of the engine loop in `start_background_task`:
shutdown drain on the stop flag, full release plus idle sleep when
disabled, else the branch of the current mode. -/
def engineIteration (stopFlag : Bool) (conf : LimiterState) (env : Env)
    (es : EngineState) : StepResult :=
  if stopFlag then
    let evT : List Event :=
      match es.targeted_pid with
      | some pid => [Event.sigcont pid]
      | none => []
    let drained := drainGlobal es.paused_global es.paused_global_set
    { es := ⟨none, [], drained.1⟩, events := evT ++ drained.2, broke := true }
  else if conf.is_active = false then
    let evT : List Event :=
      match es.targeted_pid with
      | some pid => [Event.sigcont pid]
      | none => []
    let drained := drainGlobal es.paused_global es.paused_global_set
    { es := ⟨none, [], drained.1⟩,
      events := evT ++ drained.2 ++ [Event.sleep PERIOD_MS], broke := false }
  else
    match conf.mode with
    | LimiterMode.Targeted => targetedStep conf.target_pid conf.limit_percentage env es
    | LimiterMode.Global => globalStep conf.limit_percentage env es

/-- Pids presently held suspended by the engine: the targeted pid (when
held) followed by the global paused queue. -/
def heldPids (es : EngineState) : List Int :=
  (match es.targeted_pid with
   | some pid => [pid]
   | none => []) ++ es.paused_global

/-- Consistency invariant of the engine working set: the paused set holds
exactly the pids of the paused queue and the queue has no duplicates. -/
def EngineState.inv (es : EngineState) : Prop :=
  es.paused_global_set.Perm es.paused_global ∧ es.paused_global.Nodup

instance (es : EngineState) : Decidable es.inv :=
  inferInstanceAs (Decidable (_ ∧ _))

/-- Modelled from the spec: struct `LimiterStatus` and `Limiter::get_status`
are absent from src/ (ui.rs only reads them at lines 431-528); per spec
section 3 the record mirrors the configured target, reports
`is_actively_limiting` true iff at least one process is presently
suspended, lists the currently paused pids, and counts suspend actions
issued since engine start. -/
structure LimiterStatus where
  target_pid : Option Int
  is_actively_limiting : Bool
  currently_paused_pids : List Int
  pause_count : Nat
deriving DecidableEq, Repr

/-- Number of suspend actions issued in a trace: stop signals whose target
was alive, hence actually suspended. -/
def successfulStops (env : Env) (evs : List Event) : Nat :=
  evs.countP fun e =>
    match e with
    | Event.sigstop pid => env.alive pid
    | _ => false

/-- Modelled from the spec: status republication after an iteration (spec
section 4.2, status publication). -/
def updateStatus (st : LimiterStatus) (conf : LimiterState) (env : Env)
    (es : EngineState) (evs : List Event) : LimiterStatus :=
  { target_pid := conf.target_pid,
    is_actively_limiting := !(heldPids es).isEmpty,
    currently_paused_pids := heldPids es,
    pause_count := st.pause_count + successfulStops env evs }

/-- Input of one engine iteration: stop flag, config snapshot, environment. -/
structure Inputs where
  stopFlag : Bool
  conf : LimiterState
  env : Env

/-- Run of the engine over a list of per-iteration inputs, threading the
working set and the published status; stops early when the loop breaks. -/
def runEngine (es : EngineState) (st : LimiterStatus) :
    List Inputs → EngineState × LimiterStatus
  | [] => (es, st)
  | i :: rest =>
    let r := engineIteration i.stopFlag i.conf i.env es
    let st2 := updateStatus st i.conf i.env r.es r.events
    if r.broke then (r.es, st2) else runEngine r.es st2 rest

/-! Helper lemmas about the drain loop and candidate selection. -/

/-- The drain loop sends exactly one continue signal per queue entry, in
queue order. -/
theorem drainGlobal_events (q s : List Int) :
    (drainGlobal q s).2 = q.map Event.sigcont := by
  induction q generalizing s with
  | nil => rfl
  | cons pid rest ih => simp [drainGlobal, ih]

/-- Membership in the set left over by the drain loop, for duplicate-free
sets: exactly the old members that were not queued. -/
theorem mem_drainGlobal_set (q : List Int) (s : List Int) (hs : s.Nodup)
    (p : Int) : p ∈ (drainGlobal q s).1 ↔ p ∈ s ∧ p ∉ q := by
  induction q generalizing s with
  | nil => simp [drainGlobal]
  | cons pid rest ih =>
    rw [drainGlobal]
    rw [ih (s.erase pid) (hs.erase pid)]
    rw [hs.mem_erase_iff]
    simp only [List.mem_cons]
    tauto

/-- When the set holds exactly the queued pids, the drain loop empties it. -/
theorem drainGlobal_set_eq_nil (q s : List Int) (hperm : s.Perm q)
    (hnd : q.Nodup) : (drainGlobal q s).1 = [] := by
  have hsnd : s.Nodup := hperm.symm.nodup hnd
  rw [List.eq_nil_iff_forall_not_mem]
  intro p hp
  rw [mem_drainGlobal_set q s hsnd p] at hp
  exact hp.2 (hperm.mem_iff.mp hp.1)

/-- Characterisation of the global-mode candidate list: the live processes
other than ourselves, not already paused, strictly above the noise floor. -/
theorem mem_candidatesOf (env : Env) (ps : List Int) (q : Int × ℚ) :
    q ∈ candidatesOf env ps ↔
      q ∈ env.processes ∧ q.1 ≠ env.myself ∧ q.1 ∉ ps ∧ noiseFloor < q.2 := by
  unfold candidatesOf
  rw [List.mem_filterMap]
  constructor
  · rintro ⟨a, ha, hfa⟩
    by_cases h1 : a.1 = env.myself ∨ a.1 ∈ ps
    · simp [h1] at hfa
    · by_cases h2 : a.2 ≤ noiseFloor
      · simp [h1, h2] at hfa
      · simp only [h1, h2, if_false, if_neg, Option.some.injEq] at hfa
        subst hfa
        push_neg at h1
        exact ⟨ha, h1.1, h1.2, lt_of_not_le h2⟩
  · rintro ⟨hq, hne, hnp, hfloor⟩
    refine ⟨q, hq, ?_⟩
    have h1 : ¬(q.1 = env.myself ∨ q.1 ∈ ps) := by tauto
    have h2 : ¬(q.2 ≤ noiseFloor) := not_le.mpr hfloor
    simp [h1, h2]

instance : IsTotal (Int × ℚ) usageGE := ⟨fun a b => le_total b.2 a.2⟩

instance : IsTrans (Int × ℚ) usageGE :=
  ⟨fun _ _ _ hab hbc => le_trans hbc hab⟩

/-- The selected victim is a candidate and its usage is maximal among the
candidates. -/
theorem selectVictim_spec (env : Env) (ps : List Int) (sel : Int × ℚ)
    (h : selectVictim env ps = some sel) :
    sel ∈ candidatesOf env ps ∧
      ∀ q ∈ candidatesOf env ps, q.2 ≤ sel.2 := by
  unfold selectVictim at h
  have hperm := List.perm_insertionSort usageGE (candidatesOf env ps)
  have hsort := List.sorted_insertionSort usageGE (candidatesOf env ps)
  cases hl : List.insertionSort usageGE (candidatesOf env ps) with
  | nil => rw [hl] at h; exact absurd h (by simp)
  | cons x t =>
    rw [hl] at h hperm hsort
    have hx : x = sel := by simpa using h
    subst hx
    constructor
    · exact hperm.mem_iff.mp (List.mem_cons_self x t)
    · intro q hq
      have hq2 : q ∈ x :: t := hperm.mem_iff.mpr hq
      rcases List.mem_cons.mp hq2 with h1 | h1
      · subst h1; exact le_refl _
      · exact List.rel_of_sorted_cons hsort q h1

/-! Claim theorems. -/

/-- C6: for every input to set_limit, an input in [1,100] is stored
unchanged, an input below 1 is stored as 1, an input above 100 is stored as
100, and no other field of the config changes. -/
theorem set_limit_clamps_and_preserves (s : LimiterState) (n : Nat) :
    (1 ≤ n → n ≤ 100 → (set_limit s n).limit_percentage = n) ∧
    (n < 1 → (set_limit s n).limit_percentage = 1) ∧
    (100 < n → (set_limit s n).limit_percentage = 100) ∧
    (set_limit s n).target_pid = s.target_pid ∧
    (set_limit s n).mode = s.mode ∧
    (set_limit s n).is_active = s.is_active := by
  refine ⟨?_, ?_, ?_, rfl, rfl, rfl⟩ <;> (intros; simp [set_limit]; omega)

/-- Witness for C6 at the inputs 0, 150 and 42. -/
theorem set_limit_clamps_and_preserves_witness :
    (set_limit LimiterState.new 0).limit_percentage = 1 ∧
    (set_limit LimiterState.new 150).limit_percentage = 100 ∧
    (set_limit LimiterState.new 42).limit_percentage = 42 :=
  ⟨(set_limit_clamps_and_preserves LimiterState.new 0).2.1 (by decide),
   (set_limit_clamps_and_preserves LimiterState.new 150).2.2.1 (by decide),
   (set_limit_clamps_and_preserves LimiterState.new 42).1 (by decide) (by decide)⟩

/-- C7: set_global sets mode to Global and stores the given limit without
clamping, leaving target_process_id and enabled unchanged. -/
theorem set_global_sets_mode_and_raw_limit (s : LimiterState) (n : Nat) :
    (set_global s n).mode = LimiterMode.Global ∧
    (set_global s n).limit_percentage = n ∧
    (set_global s n).target_pid = s.target_pid ∧
    (set_global s n).is_active = s.is_active :=
  ⟨rfl, rfl, rfl, rfl⟩

/-- C5: after toggle(false) the config reads disabled, and the next engine
iteration sends a continue signal to the held targeted pid and to every
entry of the global paused queue, clears all local tracking, and sleeps one
full period — leaving zero processes held suspended. -/
theorem toggle_off_releases_within_one_period
    (conf : LimiterState) (env : Env) (es : EngineState) (hinv : es.inv) :
    ((toggle conf false).1.is_active = false) ∧
    (engineIteration false (toggle conf false).1 env es).es =
      ⟨none, [], []⟩ ∧
    (engineIteration false (toggle conf false).1 env es).events =
      (match es.targeted_pid with
       | some pid => [Event.sigcont pid]
       | none => []) ++ es.paused_global.map Event.sigcont ++
        [Event.sleep PERIOD_MS] ∧
    heldPids (engineIteration false (toggle conf false).1 env es).es = [] := by
  have hia : (toggle conf false).1.is_active = false := by
    unfold toggle
    cases conf.target_pid <;> simp
  have h1 : (drainGlobal es.paused_global es.paused_global_set).1 = [] :=
    drainGlobal_set_eq_nil _ _ hinv.1 hinv.2
  have h2 := drainGlobal_events es.paused_global es.paused_global_set
  refine ⟨hia, ?_, ?_, ?_⟩ <;>
    simp [engineIteration, hia, h1, h2, heldPids]

/-- Witness for C5: a state holding target 7 and queued pids 3 and 4 is
fully released by the iteration after toggle(false). -/
theorem toggle_off_releases_within_one_period_witness :
    heldPids (engineIteration false
      (toggle ⟨some 7, 50, LimiterMode.Targeted, true⟩ false).1
      ⟨fun _ => true, fun _ => true, 0, [], 0⟩
      ⟨some 7, [3, 4], [4, 3]⟩).es = [] :=
  (toggle_off_releases_within_one_period _ _ _ (by decide)).2.2.2

/-- C1: in Targeted mode with the engine enabled, target pid held, and
limit p in [1,100], the iteration computes run_ms = PERIOD * p / 100 and
stop_ms = PERIOD - run_ms, issues a continue signal, sleeps run_ms, and
when stop_ms > 0 issues a stop signal and sleeps stop_ms, in that order,
leaving the working set unchanged so the cycle repeats every period while
the target stays alive. -/
theorem targeted_duty_cycle (conf : LimiterState) (env : Env)
    (es : EngineState) (pid : Int) (p : Nat)
    (hact : conf.is_active = true) (hmode : conf.mode = LimiterMode.Targeted)
    (htar : conf.target_pid = some pid) (hlim : conf.limit_percentage = p)
    (hp1 : 1 ≤ p) (hp2 : p ≤ 100)
    (hes : es.targeted_pid = some pid) (hq : es.paused_global = [])
    (halive : env.alive pid = true) (halive2 : env.aliveLater pid = true) :
    (engineIteration false conf env es).events =
      [Event.sigcont pid, Event.sleep (PERIOD_MS * p / 100)] ++
        (if 0 < PERIOD_MS - PERIOD_MS * p / 100 then
          [Event.sigstop pid, Event.sleep (PERIOD_MS - PERIOD_MS * p / 100)]
        else []) ∧
    (engineIteration false conf env es).es = es ∧
    (engineIteration false conf env es).broke = false := by
  have hrp : PERIOD_MS * p / 100 = p := by
    unfold PERIOD_MS
    exact Nat.mul_div_cancel_left p (by norm_num)
  have hrun : 0 < PERIOD_MS * p / 100 := by rw [hrp]; exact hp1
  rcases conf with ⟨ct, cl, cm, ca⟩
  rcases es with ⟨tp, q, st⟩
  simp only at hact hmode htar hlim hes hq
  subst hact hmode htar hlim hes hq
  by_cases hstop : PERIOD_MS * cl / 100 < PERIOD_MS <;>
    simp [engineIteration, targetedStep, targetedDrain, adoptTarget,
      dutyCycle, halive, halive2, hrun, hstop]

/-- Witness for C1: target 7 alive, limit 25, held steady state. -/
theorem targeted_duty_cycle_witness :
    (engineIteration false ⟨some 7, 25, LimiterMode.Targeted, true⟩
      ⟨fun _ => true, fun _ => true, 0, [], 0⟩ ⟨some 7, [], []⟩).events =
      [Event.sigcont 7, Event.sleep (PERIOD_MS * 25 / 100)] ++
        (if 0 < PERIOD_MS - PERIOD_MS * 25 / 100 then
          [Event.sigstop 7, Event.sleep (PERIOD_MS - PERIOD_MS * 25 / 100)]
        else []) :=
  (targeted_duty_cycle _ _ _ 7 25 rfl rfl rfl rfl (by decide) (by decide)
    rfl rfl rfl rfl).1

/-- C2 counterexample: with target 42 configured and dead, the iteration
that detects the failed continue signal sleeps a full period (contradicting
the claimed restart without sleeping the remainder), and the following
iteration issues another continue signal to the same stale pid 42
(contradicting the claimed absence of retries), because the shared config
still names it. -/
theorem targeted_failure_claim_counterexample :
    (Event.sleep PERIOD_MS ∈
      (engineIteration false ⟨some 42, 50, LimiterMode.Targeted, true⟩
        ⟨fun _ => false, fun _ => false, 0, [], 0⟩
        ⟨some 42, [], []⟩).events) ∧
    Event.sigcont 42 ∈
      (engineIteration false ⟨some 42, 50, LimiterMode.Targeted, true⟩
        ⟨fun _ => false, fun _ => false, 0, [], 0⟩
        (engineIteration false ⟨some 42, 50, LimiterMode.Targeted, true⟩
          ⟨fun _ => false, fun _ => false, 0, [], 0⟩
          ⟨some 42, [], []⟩).es).events := by decide

/-- C2 as amended: when a continue (or stop) signal to the held targeted
pid fails, the engine clears the held target from its local bookkeeping and
sleeps one full period before restarting the loop; because the shared
config still names the pid, the next iteration re-adopts it and issues one
more continue signal to the same stale identifier, once per period. -/
theorem targeted_failure_clears_sleeps_and_retries
    (conf : LimiterState) (env : Env) (es : EngineState) (pid : Int)
    (hact : conf.is_active = true) (hmode : conf.mode = LimiterMode.Targeted)
    (htar : conf.target_pid = some pid) (hes : es.targeted_pid = some pid)
    (hq : es.paused_global = []) (hdead : env.alive pid = false) :
    (engineIteration false conf env es).es.targeted_pid = none ∧
    (engineIteration false conf env es).events =
      [Event.sigcont pid, Event.sleep PERIOD_MS] ∧
    Event.sigcont pid ∈
      (engineIteration false conf env
        (engineIteration false conf env es).es).events ∧
    (∀ env2 : Env, env2.alive pid = true → env2.aliveLater pid = false →
      1 ≤ conf.limit_percentage → conf.limit_percentage < 100 →
      (engineIteration false conf env2 es).es.targeted_pid = none ∧
      (engineIteration false conf env2 es).events =
        [Event.sigcont pid,
         Event.sleep (PERIOD_MS * conf.limit_percentage / 100),
         Event.sigstop pid, Event.sleep PERIOD_MS]) := by
  rcases conf with ⟨ct, cl, cm, ca⟩
  rcases es with ⟨tp, q, st⟩
  simp only at hact hmode htar hes hq
  subst hact hmode htar hes hq
  refine ⟨?_, ?_, ?_, ?_⟩
  · simp [engineIteration, targetedStep, targetedDrain, adoptTarget,
      dutyCycle, hdead]
  · simp [engineIteration, targetedStep, targetedDrain, adoptTarget,
      dutyCycle, hdead]
  · simp [engineIteration, targetedStep, targetedDrain, adoptTarget,
      dutyCycle, hdead]
  · intro env2 h1 h2 h3 h4
    have h3' : 1 ≤ cl := h3
    have h4' : cl < 100 := h4
    have hrp : PERIOD_MS * cl / 100 = cl := by
      unfold PERIOD_MS
      exact Nat.mul_div_cancel_left cl (by norm_num)
    have hrun : 0 < PERIOD_MS * cl / 100 := by rw [hrp]; exact h3'
    have hstop : PERIOD_MS * cl / 100 < PERIOD_MS := by
      rw [hrp]; unfold PERIOD_MS; omega
    constructor <;>
      simp [engineIteration, targetedStep, targetedDrain, adoptTarget,
        dutyCycle, h1, h2, hrun, hstop]

/-- Witness for the amended C2 at target 42, limit 50, dead process. -/
theorem targeted_failure_clears_sleeps_and_retries_witness :
    (engineIteration false ⟨some 42, 50, LimiterMode.Targeted, true⟩
      ⟨fun _ => false, fun _ => false, 0, [], 0⟩
      ⟨some 42, [], []⟩).events = [Event.sigcont 42, Event.sleep PERIOD_MS] :=
  (targeted_failure_clears_sleeps_and_retries _ _ _ 42 rfl rfl rfl rfl rfl
    rfl).2.1

/-- C3: in Global mode with sampled total load above the limit, the engine
selects — from the process list minus its own pid and the already-paused
pids — the process with the highest usage strictly above the 0.5 noise
floor, sends it a stop signal, and on success appends it to the tail of the
paused queue and inserts it into the paused set. -/
theorem global_suspend_selects_top_candidate
    (conf : LimiterState) (env : Env) (es : EngineState) (sel : Int × ℚ)
    (hact : conf.is_active = true) (hmode : conf.mode = LimiterMode.Global)
    (hload : (conf.limit_percentage : ℚ) < env.total_load)
    (hsel : selectVictim env es.paused_global_set = some sel) :
    (sel ∈ env.processes ∧ sel.1 ≠ env.myself ∧
      sel.1 ∉ es.paused_global_set ∧ noiseFloor < sel.2) ∧
    (∀ q ∈ env.processes, q.1 ≠ env.myself → q.1 ∉ es.paused_global_set →
      noiseFloor < q.2 → q.2 ≤ sel.2) ∧
    (engineIteration false conf env es).events =
      (match es.targeted_pid with
       | some t => [Event.sigcont t]
       | none => []) ++ [Event.sigstop sel.1, Event.sleep PERIOD_MS] ∧
    (env.alive sel.1 = true →
      (engineIteration false conf env es).es.paused_global =
        es.paused_global ++ [sel.1] ∧
      (engineIteration false conf env es).es.paused_global_set =
        hsInsert es.paused_global_set sel.1) := by
  obtain ⟨hmem, hmax⟩ := selectVictim_spec env es.paused_global_set sel hsel
  rw [mem_candidatesOf] at hmem
  rcases conf with ⟨ct, cl, cm, ca⟩
  rcases es with ⟨tp, qg, st⟩
  simp only at hact hmode hload hsel hmem hmax
  subst hact hmode
  refine ⟨hmem, ?_, ?_, ?_⟩
  · intro q hq h1 h2 h3
    exact hmax q ((mem_candidatesOf env st q).mpr ⟨hq, h1, h2, h3⟩)
  · by_cases halive : env.alive sel.1 <;> cases tp <;>
      simp [engineIteration, globalStep, hload, hsel, halive]
  · intro halive
    constructor <;>
      simp [engineIteration, globalStep, hload, hsel, halive]

/-- Witness for C3: load 90 above limit 80; pid 11 at usage 60 is picked
over 10 (usage 40), 12 (below the noise floor), 999 (the engine itself at
usage 80) and 5 (usage 70 but already paused); the queue grows at the tail. -/
theorem global_suspend_selects_top_candidate_witness :
    (engineIteration false ⟨none, 80, LimiterMode.Global, true⟩
      ⟨fun _ => true, fun _ => true, 90,
        [(10, 40), (11, 60), (999, 80), (12, mkRat 1 4), (5, 70)], 999⟩
      ⟨none, [5], [5]⟩).es.paused_global = [5, 11] :=
  (global_suspend_selects_top_candidate _ _ _ (11, 60) rfl rfl (by decide)
    (by decide)).2.2.2 rfl |>.1

/-- C4: in Global mode, when the sampled load drops strictly below the
limit minus the 5-point hysteresis, the engine resumes exactly the pid at
the head of the paused queue (FIFO) and removes it from queue and set;
when the load lies between the two thresholds it neither suspends nor
resumes. -/
theorem global_hysteresis_resume
    (conf : LimiterState) (env : Env) (es : EngineState)
    (hact : conf.is_active = true) (hmode : conf.mode = LimiterMode.Global) :
    (∀ pid rest,
      env.total_load < (conf.limit_percentage : ℚ) - GLOBAL_HYSTERESIS →
      es.paused_global = pid :: rest →
      (engineIteration false conf env es).es.paused_global = rest ∧
      (engineIteration false conf env es).es.paused_global_set =
        es.paused_global_set.erase pid ∧
      (engineIteration false conf env es).events =
        (match es.targeted_pid with
         | some t => [Event.sigcont t]
         | none => []) ++ [Event.sigcont pid, Event.sleep PERIOD_MS]) ∧
    ((conf.limit_percentage : ℚ) - GLOBAL_HYSTERESIS ≤ env.total_load →
      env.total_load ≤ (conf.limit_percentage : ℚ) → 0 ≤ env.total_load →
      (engineIteration false conf env es).es.paused_global =
        es.paused_global ∧
      (engineIteration false conf env es).es.paused_global_set =
        es.paused_global_set ∧
      (engineIteration false conf env es).events =
        (match es.targeted_pid with
         | some t => [Event.sigcont t]
         | none => []) ++ [Event.sleep PERIOD_MS]) := by
  rcases conf with ⟨ct, cl, cm, ca⟩
  rcases es with ⟨tp, qg, st⟩
  simp only at hact hmode
  subst hact hmode
  constructor
  · intro pid rest hlow hqe
    simp only at hlow hqe
    subst hqe
    have h5 : (0:ℚ) < GLOBAL_HYSTERESIS := by norm_num [GLOBAL_HYSTERESIS]
    have hno : ¬ ((cl : ℚ) < env.total_load) := by
      push_neg
      calc env.total_load ≤ (cl : ℚ) - GLOBAL_HYSTERESIS := le_of_lt hlow
        _ ≤ (cl : ℚ) := by linarith
    have hlt : env.total_load < lowerThreshold cl := by
      rw [lowerThreshold]
      exact lt_of_lt_of_le hlow (le_max_left _ _)
    cases tp <;> simp [engineIteration, globalStep, hno, hlt]
  · intro h1 h2 h3
    simp only at h1 h2 h3
    have hno : ¬ ((cl : ℚ) < env.total_load) := not_lt.mpr h2
    have hge : ¬ (env.total_load < lowerThreshold cl) := by
      rw [lowerThreshold]
      exact not_lt.mpr (max_le h1 h3)
    cases tp <;> simp [engineIteration, globalStep, hno, hge]

/-- Witness for C4: limit 80; at load 69 (below 75) the head pid 5 of the
queue [5, 6] is resumed; at load 78 (between 75 and 80) nothing changes. -/
theorem global_hysteresis_resume_witness :
    (engineIteration false ⟨none, 80, LimiterMode.Global, true⟩
      ⟨fun _ => true, fun _ => true, 69, [], 0⟩
      ⟨none, [5, 6], [6, 5]⟩).es.paused_global = [6] ∧
    (engineIteration false ⟨none, 80, LimiterMode.Global, true⟩
      ⟨fun _ => true, fun _ => true, 78, [], 0⟩
      ⟨none, [5, 6], [6, 5]⟩).es.paused_global = [5, 6] :=
  ⟨((global_hysteresis_resume _ _ _ rfl rfl).1 5 [6]
      (by norm_num [GLOBAL_HYSTERESIS]) rfl).1,
   ((global_hysteresis_resume _ _ _ rfl rfl).2
      (by norm_num [GLOBAL_HYSTERESIS]) (by norm_num) (by norm_num)).1⟩

/-- Shape of every Targeted-branch outcome: the global queue ends empty,
the set is whatever the opening drain left, and at most one pid is held. -/
theorem targetedStep_shape (target : Option Int) (limit : Nat) (env : Env)
    (es : EngineState) :
    (targetedStep target limit env es).es.paused_global = [] ∧
    (targetedStep target limit env es).es.paused_global_set =
      (targetedDrain es).1 ∧
    (heldPids (targetedStep target limit env es).es).length ≤ 1 := by
  unfold targetedStep dutyCycle
  dsimp only
  split
  · simp [heldPids]
  · split
    · simp [heldPids]
    · split
      · split
        · simp [heldPids]
        · simp [heldPids]
      · simp [heldPids]

/-- Under the working-set invariant, the Targeted-branch opening drain
leaves an empty set. -/
theorem targetedDrain_nil (es : EngineState) (hinv : es.inv) :
    (targetedDrain es).1 = [] := by
  obtain ⟨hperm, hnd⟩ := hinv
  unfold targetedDrain
  by_cases h : es.paused_global.isEmpty
  · rw [if_pos h]
    have he : es.paused_global = [] := List.isEmpty_iff.mp h
    rw [he] at hperm
    exact hperm.eq_nil
  · rw [if_neg h]
    exact drainGlobal_set_eq_nil _ _ hperm hnd

/-- The Global branch always releases the held targeted pid. -/
theorem globalStep_targeted_none (limit : Nat) (env : Env)
    (es : EngineState) :
    (globalStep limit env es).es.targeted_pid = none := by
  rcases es with ⟨tp, qg, st⟩
  cases tp <;>
    · unfold globalStep
      dsimp only
      repeat' split
      all_goals rfl

/-- The Global branch preserves the working-set invariant. -/
theorem globalStep_inv (limit : Nat) (env : Env) (es : EngineState)
    (hinv : es.inv) : (globalStep limit env es).es.inv := by
  rcases es with ⟨tp, qg, st⟩
  obtain ⟨hperm, hnd⟩ := hinv
  simp only at hperm hnd
  cases tp <;>
  · unfold globalStep
    by_cases h1 : (limit : ℚ) < env.total_load
    · simp only [if_pos h1]
      cases hsel : selectVictim env st with
      | none => exact ⟨hperm, hnd⟩
      | some sel =>
        have hselc := (selectVictim_spec env st sel hsel).1
        rw [mem_candidatesOf] at hselc
        have hnotin : sel.1 ∉ st := hselc.2.2.1
        have hnotq : sel.1 ∉ qg := fun h => hnotin (hperm.mem_iff.mpr h)
        by_cases halive : env.alive sel.1
        · simp only [hsel, halive, if_pos]
          refine ⟨?_, ?_⟩
          · show (hsInsert st sel.1).Perm (qg ++ [sel.1])
            unfold hsInsert
            rw [if_neg hnotin]
            exact (hperm.cons sel.1).trans
              (List.perm_append_singleton sel.1 qg).symm
          · show (qg ++ [sel.1]).Nodup
            simp [List.nodup_append, hnd, hnotq]
        · simp only [hsel, halive, if_neg, Bool.false_eq_true]
          rw [List.erase_of_not_mem hnotin]
          exact ⟨hperm, hnd⟩
    · simp only [if_neg h1]
      by_cases h2 : env.total_load < lowerThreshold limit
      · simp only [if_pos h2]
        cases qg with
        | nil => exact ⟨hperm, hnd⟩
        | cons pid rest =>
          refine ⟨?_, hnd.of_cons⟩
          show (st.erase pid).Perm rest
          have h3 := hperm.erase pid
          rwa [List.erase_cons_head] at h3
      · simp only [if_neg h2]
        exact ⟨hperm, hnd⟩

/-- C8: with the engine enabled, an iteration executed in Targeted mode
leaves the global paused queue and set empty and holds at most one process,
and an iteration executed in Global mode holds no targeted pid. -/
theorem mode_switch_cleanup (conf : LimiterState) (env : Env)
    (es : EngineState) (hinv : es.inv) (hact : conf.is_active = true) :
    (conf.mode = LimiterMode.Targeted →
      (engineIteration false conf env es).es.paused_global = [] ∧
      (engineIteration false conf env es).es.paused_global_set = [] ∧
      (heldPids (engineIteration false conf env es).es).length ≤ 1) ∧
    (conf.mode = LimiterMode.Global →
      (engineIteration false conf env es).es.targeted_pid = none) := by
  constructor
  · intro hm
    have he : engineIteration false conf env es =
        targetedStep conf.target_pid conf.limit_percentage env es := by
      simp [engineIteration, hact, hm]
    have h1 := targetedStep_shape conf.target_pid conf.limit_percentage env es
    have h2 := targetedDrain_nil es hinv
    rw [he]
    exact ⟨h1.1, h2 ▸ h1.2.1, h1.2.2⟩
  · intro hm
    have he : engineIteration false conf env es =
        globalStep conf.limit_percentage env es := by
      simp [engineIteration, hact, hm]
    rw [he]
    exact globalStep_targeted_none _ _ _

/-- Witness for C8: a dirty working set (target 9 held, pid 4 queued) is
cleaned by a Targeted iteration and the target is dropped by a Global one. -/
theorem mode_switch_cleanup_witness :
    (engineIteration false ⟨some 3, 50, LimiterMode.Targeted, true⟩
      ⟨fun _ => true, fun _ => true, 0, [], 0⟩
      ⟨some 9, [4], [4]⟩).es.paused_global = [] ∧
    (engineIteration false ⟨some 3, 50, LimiterMode.Global, true⟩
      ⟨fun _ => true, fun _ => true, 0, [], 0⟩
      ⟨some 9, [4], [4]⟩).es.targeted_pid = none :=
  ⟨((mode_switch_cleanup _ _ _ (by decide) rfl).1 rfl).1,
   (mode_switch_cleanup _ _ _ (by decide) rfl).2 rfl⟩

/-- C10: every branch of the loop body preserves the correspondence between
the paused set and the paused queue, and the queue stays duplicate-free. -/
theorem paused_set_matches_queue_invariant (stopFlag : Bool)
    (conf : LimiterState) (env : Env) (es : EngineState) (hinv : es.inv) :
    (engineIteration stopFlag conf env es).es.inv := by
  obtain ⟨hperm, hnd⟩ := hinv
  have hdrain : (drainGlobal es.paused_global es.paused_global_set).1 = [] :=
    drainGlobal_set_eq_nil _ _ hperm hnd
  cases stopFlag with
  | true =>
    simp only [engineIteration, if_pos]
    exact ⟨by rw [hdrain], List.nodup_nil⟩
  | false =>
    by_cases ha : conf.is_active = false
    · simp only [engineIteration, ha, if_true, if_false, Bool.true_eq_false,
        Bool.false_eq_true, reduceIte]
      exact ⟨by rw [hdrain], List.nodup_nil⟩
    · have ha2 : conf.is_active = true := by
        cases h : conf.is_active
        · exact absurd h ha
        · rfl
      cases hm : conf.mode with
      | Targeted =>
        have he : engineIteration false conf env es =
            targetedStep conf.target_pid conf.limit_percentage env es := by
          simp [engineIteration, ha2, hm]
        rw [he]
        have h1 := targetedStep_shape conf.target_pid conf.limit_percentage env es
        have h2 := targetedDrain_nil es ⟨hperm, hnd⟩
        constructor
        · rw [h1.1, h1.2.1, h2]
        · rw [h1.1]
          exact List.nodup_nil
      | Global =>
        have he : engineIteration false conf env es =
            globalStep conf.limit_percentage env es := by
          simp [engineIteration, ha2, hm]
        rw [he]
        exact globalStep_inv _ _ _ ⟨hperm, hnd⟩

/-- Witness for C10: the invariant survives a Global-mode suspend step that
picks pid 11 on top of the already-paused pid 5. -/
theorem paused_set_matches_queue_invariant_witness :
    (engineIteration false ⟨none, 80, LimiterMode.Global, true⟩
      ⟨fun _ => true, fun _ => true, 90,
        [(10, 40), (11, 60), (999, 80), (12, mkRat 1 4), (5, 70)], 999⟩
      ⟨none, [5], [5]⟩).es.inv :=
  paused_set_matches_queue_invariant false _ _ _ (by decide)

/-- C9 (LimiterStatus modelled from the spec, src/ has only its reader in
ui.rs): along any engine run pause_count never decreases, each status
republication adds exactly the number of suspend actions issued in that
iteration, and is_actively_limiting is true iff at least one process is
presently held suspended by the engine. -/
theorem status_pause_count_monotone_and_active_iff
    (st : LimiterStatus) (es : EngineState) (ins : List Inputs)
    (conf : LimiterState) (env : Env) (es2 : EngineState)
    (evs : List Event) :
    st.pause_count ≤ (runEngine es st ins).2.pause_count ∧
    (updateStatus st conf env es2 evs).pause_count =
      st.pause_count + successfulStops env evs ∧
    ((updateStatus st conf env es2 evs).is_actively_limiting = true ↔
      heldPids es2 ≠ []) := by
  refine ⟨?_, rfl, ?_⟩
  · induction ins generalizing es st with
    | nil => exact le_refl _
    | cons i rest ih =>
      rw [runEngine]
      split
      · exact Nat.le_add_right _ _
      · exact le_trans (Nat.le_add_right st.pause_count _)
          (ih (updateStatus st i.conf i.env
                (engineIteration i.stopFlag i.conf i.env es).es
                (engineIteration i.stopFlag i.conf i.env es).events)
              (engineIteration i.stopFlag i.conf i.env es).es)
  · cases h : heldPids es2 <;> simp [updateStatus, h]
